import Mathlib

/-!
Shallow embedding of the chessire-utils position model (src/color.rs,
src/piece.rs, src/board.rs, src/castling.rs, src/moves.rs, src/lib.rs).

Rust strings are modelled as `List Char`; Rust `usize` as `Nat`; fallible
operations return dedicated result inductives in which a `panicked`
constructor marks the executions where the Rust code would panic
(`unwrap` on `None`, slice index out of bounds) and an `error`
constructor marks the executions that return `Err(..)`.
-/

/-- Color enumeration, from src/color.rs. -/
inductive Color where
  | White : Color
  | Black : Color
deriving DecidableEq

/-- Piece enumeration (six kinds, each carrying a color), from src/piece.rs. -/
inductive Piece where
  | King : Color → Piece
  | Queen : Color → Piece
  | Rook : Color → Piece
  | Bishop : Color → Piece
  | Knight : Color → Piece
  | Pawn : Color → Piece
deriving DecidableEq

/-- Piece::new_from_fen_char, from src/piece.rs lines 94-110.  The Rust
match on the twelve FEN letters is rendered as a cascade of equality
tests; any other character yields `none`. -/
def pieceFromFenChar (c : Char) : Option Piece :=
  if c = 'P' then some (Piece.Pawn Color.White)
  else if c = 'N' then some (Piece.Knight Color.White)
  else if c = 'B' then some (Piece.Bishop Color.White)
  else if c = 'R' then some (Piece.Rook Color.White)
  else if c = 'Q' then some (Piece.Queen Color.White)
  else if c = 'K' then some (Piece.King Color.White)
  else if c = 'p' then some (Piece.Pawn Color.Black)
  else if c = 'n' then some (Piece.Knight Color.Black)
  else if c = 'b' then some (Piece.Bishop Color.Black)
  else if c = 'r' then some (Piece.Rook Color.Black)
  else if c = 'q' then some (Piece.Queen Color.Black)
  else if c = 'k' then some (Piece.King Color.Black)
  else none

/-- Coord, from src/board.rs lines 21-25: a file and a rank, both usize. -/
structure Coord where
  file : Nat
  rank : Nat
deriving DecidableEq

/-- Coord::new, src/board.rs line 33. -/
def Coord.new (file rank : Nat) : Coord := ⟨file, rank⟩

/-- Coord::from_tile, src/board.rs lines 36-41. -/
def Coord.from_tile (t : Nat) : Coord := ⟨t % 8, t / 8⟩

/-- Coord::to_usize, src/board.rs lines 42-44. -/
def Coord.to_usize (c : Coord) : Nat := c.file + c.rank * 8

/-- Coord::next_up, src/board.rs lines 45-51. -/
def Coord.next_up (c : Coord) : Option Coord :=
  if c.rank < 7 then some ⟨c.file, c.rank + 1⟩ else none

/-- Coord::next_down, src/board.rs lines 52-58. -/
def Coord.next_down (c : Coord) : Option Coord :=
  if 0 < c.rank then some ⟨c.file, c.rank - 1⟩ else none

/-- Coord::next_left, src/board.rs lines 59-65. -/
def Coord.next_left (c : Coord) : Option Coord :=
  if 0 < c.file then some ⟨c.file - 1, c.rank⟩ else none

/-- Coord::next_right, src/board.rs lines 66-72. -/
def Coord.next_right (c : Coord) : Option Coord :=
  if c.file < 7 then some ⟨c.file + 1, c.rank⟩ else none

/-- Wrapping subtraction on u8 values (release-mode Rust semantics for the
`-` operator on u8); both arguments are assumed below 256. -/
def sub8 (a b : Nat) : Nat := (a + 256 - b) % 256

/-- Outcome of `<Coord as FromStr>::from_str`: the Rust implementation
either returns `Ok` or panics inside `unwrap()`; it never returns `Err`. -/
inductive CoordParse where
  | panicked : CoordParse
  | ok : Coord → CoordParse
deriving DecidableEq

/-- FromStr for Coord, src/board.rs lines 77-87.  `nth(0)`/`nth(1)` panic
when the string is shorter than two characters; otherwise the two leading
characters are lowercased and offset from `a` and `0` with **no range
check whatsoever**, and the function unconditionally returns `Ok`. -/
def Coord.from_str (s : List Char) : CoordParse :=
  match s with
  | c0 :: c1 :: _ =>
    CoordParse.ok ⟨sub8 (c0.toLower.toNat % 256) 97, sub8 (sub8 (c1.toLower.toNat % 256) 48) 1⟩
  | _ => CoordParse.panicked

/-- Display for Coord, src/board.rs lines 89-93: lowercase file letter
(via to_char, line 28-30) followed by the decimal rendering of rank+1. -/
def Coord.display (c : Coord) : List Char :=
  (Char.ofNat ((c.file % 256 + 97) % 256)).toLower :: Nat.toDigits 10 (c.rank + 1)

/-- SelectionColor, src/board.rs lines 227-231 (three u8 channels). -/
structure SelectionColor where
  red : Nat
  green : Nat
  blue : Nat
deriving DecidableEq

/-- Selection, src/board.rs lines 239-243: a list of tiles plus a color. -/
structure Selection where
  squares : List Nat
  color : SelectionColor
deriving DecidableEq

/-- Board, src/board.rs lines 269-274: 64 optional-piece slots (modelled
as a length-64 list indexed by tile), the cosmetic selections, and the
perspective color. -/
structure Board where
  squares : List (Option Piece)
  selections : List Selection
  perspective : Color
deriving DecidableEq

/-- Board value every construction starts from (squares: [None; 64],
selections: vec![], perspective: White), src/board.rs lines 296-300. -/
def emptyBoard : Board := ⟨List.replicate 64 none, [], Color.White⟩

/-- Writing slot `i` of the squares array: `self.squares[t] = v`.  The
Rust slice indexing panics when the index is out of bounds, which the
embedding reports as `none`. -/
def setSquare (sq : List (Option Piece)) (i : Nat) (v : Option Piece) :
    Option (List (Option Piece)) :=
  if i < sq.length then some (sq.set i v) else none

/-- One character of a rank string inside Board::set_position_from_fen,
src/board.rs lines 335-345.  State is (squares, file cursor).  A digit
advances the cursor by its value; any other character stores
`Piece::new_from_fen_char c` (possibly `none`) at tile
`Coord::new(file, rank).to_usize()` and advances the cursor by one. -/
def rankCharStep (rank : Nat) (st : List (Option Piece) × Nat) (c : Char) :
    Option (List (Option Piece) × Nat) :=
  if c.isDigit then some (st.1, st.2 + (c.toNat - 48))
  else
    match setSquare st.1 (Coord.to_usize ⟨st.2, rank⟩) (pieceFromFenChar c) with
    | none => none
    | some sq2 => some (sq2, st.2 + 1)

/-- Iterating rankCharStep over a whole rank string. -/
def processRankChars (rank : Nat) :
    List (Option Piece) × Nat → List Char → Option (List (Option Piece) × Nat)
  | st, [] => some st
  | st, c :: rest =>
    match rankCharStep rank st c with
    | none => none
    | some st2 => processRankChars rank st2 rest

/-- The enumerate loop of Board::set_position_from_fen, src/board.rs
lines 331-346: block `i` is parsed at rank `7 - i` starting from file 0. -/
def processBlocks : List (Option Piece) → Nat → List (List Char) → Option (List (Option Piece))
  | sq, _, [] => some sq
  | sq, i, blk :: rest =>
    match processRankChars (7 - i) (sq, 0) blk with
    | none => none
    | some st => processBlocks st.1 (i + 1) rest

/-- Outcome of Board::set_position_from_fen. -/
inductive PlacementResult where
  | panicked : PlacementResult
  | error : PlacementResult
  | ok : Board → PlacementResult
deriving DecidableEq

/-- Board::set_position_from_fen, src/board.rs lines 324-348: split the
placement field on `/`, fail unless there are exactly 8 blocks, then
process each block; only the squares array is mutated. -/
def Board.set_position_from_fen (b : Board) (placement : List Char) : PlacementResult :=
  if (placement.splitOn '/').length = 8 then
    match processBlocks b.squares 0 (placement.splitOn '/') with
    | none => PlacementResult.panicked
    | some sq => PlacementResult.ok { b with squares := sq }
  else PlacementResult.error

/-- Board::clear, src/board.rs lines 349-353: all slots emptied, the
selections dropped and the perspective reset to White. -/
def Board.clear (_b : Board) : Board := emptyBoard

/-- Default piece placement constant, src/board.rs line 292. -/
def defaultPiecePlacement : List Char :=
  ['r', 'n', 'b', 'q', 'k', 'b', 'n', 'r', '/',
   'p', 'p', 'p', 'p', 'p', 'p', 'p', 'p', '/',
   '8', '/', '8', '/', '8', '/', '8', '/',
   'P', 'P', 'P', 'P', 'P', 'P', 'P', 'P', '/',
   'R', 'N', 'B', 'Q', 'K', 'B', 'N', 'R']

/-- Result of the placement parse performed inside `Board::default`. -/
def boardNewResult : PlacementResult :=
  Board.set_position_from_fen emptyBoard defaultPiecePlacement

/-- Default for Board / Board::new, src/board.rs lines 294-305 and
321-323: the empty board with the default placement applied and
unwrapped.  The fallback arm models the `.unwrap()` panic branch and is
shown unreachable below. -/
def boardNew : Board :=
  match boardNewResult with
  | PlacementResult.ok b => b
  | _ => emptyBoard

/-- CastlingRights, src/castling.rs lines 3-9. -/
structure CastlingRights where
  white_king_side : Bool
  white_queen_side : Bool
  black_king_side : Bool
  black_queen_side : Bool
deriving DecidableEq

/-- CastlingRights::new / Default, src/castling.rs lines 11-25: all true. -/
def CastlingRights.new : CastlingRights := ⟨true, true, true, true⟩

/-- Display for CastlingRights, src/castling.rs lines 27-50: the letters
of the true flags in the order K, Q, k, q, then a dash when all four
flags are false. -/
def castlingToFen (cr : CastlingRights) : List Char :=
  (if cr.white_king_side then ['K'] else []) ++
  (if cr.white_queen_side then ['Q'] else []) ++
  (if cr.black_king_side then ['k'] else []) ++
  (if cr.black_queen_side then ['q'] else []) ++
  (if !cr.white_king_side && !cr.white_queen_side &&
      !cr.black_king_side && !cr.black_queen_side then ['-'] else [])

/-- Move, src/moves.rs lines 6-16. -/
structure Move where
  source : Coord
  target : Coord
  piece : Piece
  promoted_piece : Option Piece
  capture : Bool
  double_push : Bool
  enpassant : Bool
  castling : Bool
deriving DecidableEq

/-- Move::new, src/moves.rs lines 19-30: all four flags start false. -/
def Move.new (source target : Coord) (piece : Piece) (promoted_piece : Option Piece) : Move :=
  ⟨source, target, piece, promoted_piece, false, false, false, false⟩

/-- Builder setter Move::capture, src/moves.rs lines 31-34 (named
set_capture here because the Rust method shares its name with the field). -/
def Move.set_capture (m : Move) (c : Bool) : Move := { m with capture := c }

/-- Builder setter Move::castling, src/moves.rs lines 35-38. -/
def Move.set_castling (m : Move) (c : Bool) : Move := { m with castling := c }

/-- Builder setter Move::double_push, src/moves.rs lines 39-42. -/
def Move.set_double_push (m : Move) (c : Bool) : Move := { m with double_push := c }

/-- Builder setter Move::enpassant, src/moves.rs lines 43-46. -/
def Move.set_enpassant (m : Move) (c : Bool) : Move := { m with enpassant := c }

/-- Move::new_pawn_double_push, src/moves.rs lines 48-73.  Note that both
`unwrap_or` fallbacks reuse the original `source`, not the intermediate
square. -/
def Move.new_pawn_double_push (color : Color) (source : Coord) : Move :=
  (((((Move.new source
      (if color = Color.White
       then ((source.next_up.getD source).next_up).getD source
       else ((source.next_down.getD source).next_down).getD source)
      (Piece.Pawn color) none).set_double_push true).set_capture
        false).set_castling false).set_enpassant false)

/-- ChessGame (the Position aggregate), src/lib.rs lines 21-29. -/
structure ChessGame where
  board : Board
  castling_rights : CastlingRights
  side_to_move : Color
  enpassant_target_square : Option Coord
  halfmove_clock : Nat
  fullmove_clock : Nat
deriving DecidableEq

/-- Default for ChessGame, src/lib.rs lines 31-42. -/
def gameDefault : ChessGame :=
  { board := boardNew, castling_rights := CastlingRights.new,
    side_to_move := Color.White, enpassant_target_square := none,
    halfmove_clock := 0, fullmove_clock := 1 }

/-- ChessGame::new_empty_board, src/lib.rs lines 68-70. -/
def ChessGame.new_empty_board : ChessGame := gameDefault

/-- ChessGame::clear, src/lib.rs lines 83-85: clears the board only. -/
def ChessGame.clear (g : ChessGame) : ChessGame := { g with board := Board.clear g.board }

/-- Rust char::is_ascii_whitespace (space, tab, newline, form feed,
carriage return). -/
def isAsciiWhitespaceChar (c : Char) : Bool :=
  c = ' ' || c = '\t' || c = '\n' || c = '\x0c' || c = '\r'

/-- str::split_ascii_whitespace: split on whitespace runs, dropping the
empty pieces. -/
def splitAsciiWhitespace (l : List Char) : List (List Char) :=
  (l.splitOnP isAsciiWhitespaceChar).filter (fun w => !w.isEmpty)

/-- u32::from_str semantics used for the two clocks: optional leading
plus sign, then at least one decimal digit, rejecting values ≥ 2^32. -/
def parseU32 (s : List Char) : Option Nat :=
  match (match s with | '+' :: rest => rest | _ => s) with
  | [] => none
  | ds =>
    if ds.all Char.isDigit then
      if ds.foldl (fun acc c => acc * 10 + (c.toNat - 48)) 0 < 2 ^ 32 then
        some (ds.foldl (fun acc c => acc * 10 + (c.toNat - 48)) 0)
      else none
    else none

/-- Side-to-move decoding of FEN field 2, src/lib.rs lines 101-106: the
Rust match arms `"w" | "W"`, `"b" | "B"` and the catch-all White. -/
def sideToMoveFromField (f : List Char) : Color :=
  if f = ['w'] ∨ f = ['W'] then Color.White
  else if f = ['b'] ∨ f = ['B'] then Color.Black
  else Color.White

/-- Castling decoding of FEN field 3, src/lib.rs lines 109-113: each flag
is set iff its letter occurs anywhere in the field. -/
def castlingFromField (f : List Char) : CastlingRights :=
  ⟨f.contains 'K', f.contains 'Q', f.contains 'k', f.contains 'q'⟩

/-- File letter decoding inside the en-passant arm, src/lib.rs lines
125-135. -/
def fileFromChar (c : Char) : Option Nat :=
  if c = 'a' then some 0
  else if c = 'b' then some 1
  else if c = 'c' then some 2
  else if c = 'd' then some 3
  else if c = 'e' then some 4
  else if c = 'f' then some 5
  else if c = 'g' then some 6
  else if c = 'h' then some 7
  else none

/-- Rank digit decoding inside the en-passant arm, src/lib.rs lines
136-140: faithfully `'3' ↦ 3` and `'6' ↦ 6` (the source stores these raw
values as the 0-based rank), anything else is a format error. -/
def rankFromChar (c : Char) : Option Nat :=
  if c = '3' then some 3 else if c = '6' then some 6 else none

/-- Outcome of decoding FEN field 4 (en-passant target), src/lib.rs lines
116-143: `-` clears the target, a one-character field panics in
`it.next().unwrap()`, otherwise the first two characters are decoded with
failures reported as format errors. -/
inductive EpResult where
  | panicked : EpResult
  | error : EpResult
  | ok : Option Coord → EpResult
deriving DecidableEq

/-- En-passant field decoding, src/lib.rs lines 116-143. -/
def epFromField (f : List Char) : EpResult :=
  if f = ['-'] then EpResult.ok none
  else
    match f with
    | c1 :: c2 :: _ =>
      match fileFromChar c1 with
      | none => EpResult.error
      | some fl =>
        match rankFromChar c2 with
        | none => EpResult.error
        | some rk => EpResult.ok (some ⟨fl, rk⟩)
    | _ => EpResult.panicked

/-- Outcome of ChessGame::apply_fen.  Because apply_fen mutates `self`
field by field, the `error` constructor carries the state as mutated up
to the failure point. -/
inductive FenResult where
  | panicked : FenResult
  | error : ChessGame → FenResult
  | ok : ChessGame → FenResult
deriving DecidableEq

/-- Fields 2-6 of apply_fen, src/lib.rs lines 100-150, entered once the
placement field has been applied: side to move and castling rights are
assigned unconditionally, then the en-passant field either panics,
fails (leaving the en-passant target and clocks at their prior values)
or succeeds, after which the clocks are parsed with unwrap_or(0). -/
def applyFenAfterPlacement (g : ChessGame) (f2 f3 f4 f5 f6 : List Char) : FenResult :=
  match epFromField f4 with
  | EpResult.panicked => FenResult.panicked
  | EpResult.error =>
    FenResult.error { g with side_to_move := sideToMoveFromField f2,
                             castling_rights := castlingFromField f3 }
  | EpResult.ok ep =>
    FenResult.ok { g with side_to_move := sideToMoveFromField f2,
                          castling_rights := castlingFromField f3,
                          enpassant_target_square := ep,
                          halfmove_clock := (parseU32 f5).getD 0,
                          fullmove_clock := (parseU32 f6).getD 0 }

/-- ChessGame::apply_fen after whitespace splitting, src/lib.rs lines
91-150: any field count other than six is rejected before any mutation;
with six fields the board is cleared, the placement applied, and the
remaining fields processed. -/
def applyFenFields (g : ChessGame) : List (List Char) → FenResult
  | [f1, f2, f3, f4, f5, f6] =>
    match Board.set_position_from_fen (Board.clear g.board) f1 with
    | PlacementResult.panicked => FenResult.panicked
    | PlacementResult.error => FenResult.error { g with board := Board.clear g.board }
    | PlacementResult.ok b2 => applyFenAfterPlacement { g with board := b2 } f2 f3 f4 f5 f6
  | _ => FenResult.error g

/-- ChessGame::apply_fen, src/lib.rs lines 87-151. -/
def applyFen (g : ChessGame) (fen : List Char) : FenResult :=
  applyFenFields g (splitAsciiWhitespace fen)

/-!
Concrete inputs used by the theorems below.
-/

/-- FEN record whose en-passant field is the square e3. -/
def fenEpE3 : List Char :=
  ['8', '/', '8', '/', '8', '/', '8', '/', '8', '/', '8', '/', '8', '/', '8',
   ' ', 'w', ' ', '-', ' ', 'e', '3', ' ', '0', ' ', '1']

/-- FEN record whose en-passant field is a dash. -/
def fenEpDash : List Char :=
  ['8', '/', '8', '/', '8', '/', '8', '/', '8', '/', '8', '/', '8', '/', '8',
   ' ', 'w', ' ', '-', ' ', '-', ' ', '0', ' ', '1']

/-- FEN record whose en-passant field names the square e4 (rank digit 4). -/
def fenEpE4 : List Char :=
  ['8', '/', '8', '/', '8', '/', '8', '/', '8', '/', '8', '/', '8', '/', '8',
   ' ', 'w', ' ', '-', ' ', 'e', '4', ' ', '0', ' ', '1']

/-- State produced by applying fenEpE3 to the default game. -/
def gameEpE3 : ChessGame :=
  { board := emptyBoard, castling_rights := ⟨false, false, false, false⟩,
    side_to_move := Color.White, enpassant_target_square := some ⟨4, 3⟩,
    halfmove_clock := 0, fullmove_clock := 1 }

/-- Placement field with nine rooks in the final (rank 1) block. -/
def fenNineRooksLast : List Char :=
  ['8', '/', '8', '/', '8', '/', '8', '/', '8', '/', '8', '/', '8', '/',
   'R', 'R', 'R', 'R', 'R', 'R', 'R', 'R', 'R']

/-- Placement field with nine rooks in the first (rank 8) block. -/
def fenNineRooksFirst : List Char :=
  ['R', 'R', 'R', 'R', 'R', 'R', 'R', 'R', 'R', '/',
   '8', '/', '8', '/', '8', '/', '8', '/', '8', '/', '8', '/', '8']

/-- C1: apply_fen's en-passant decoding clears the target on a dash and
fails on rank digits other than 3 and 6, as the claim states; but for
the field e3 the stored coordinate is Coord(file 4, rank 3), whose
algebraic formatting is e4, not e3 — the source maps the rank digit to
itself instead of to the 0-based rank, so the stored target is one rank
above the named square.  This contradicts the claim (and the Coord
type's own parsing/formatting convention), so the code is at fault. -/
theorem c1_enpassant_rank_bug :
    applyFen gameDefault fenEpE3 = FenResult.ok gameEpE3 ∧
    gameEpE3.enpassant_target_square = some (⟨4, 3⟩ : Coord) ∧
    Coord.display (⟨4, 3⟩ : Coord) = ['e', '4'] ∧
    (['e', '4'] : List Char) ≠ ['e', '3'] ∧
    applyFen gameDefault fenEpDash =
      FenResult.ok { gameEpE3 with enpassant_target_square := none } ∧
    applyFen gameDefault fenEpE4 =
      FenResult.error { gameEpE3 with enpassant_target_square := none } := by
  decide

/-- C2 counterexample: a double pawn push constructed at a7 (file 0,
rank 6) for White would have to leave the board, and the claim says the
target then saturates to a single step at the board edge, i.e. to a8 =
(0, 7); the source instead falls back to the original source square
(0, 6). -/
theorem c2_saturation_counterexample :
    (Move.new_pawn_double_push Color.White ⟨0, 6⟩).target = (⟨0, 6⟩ : Coord) ∧
    (Move.new_pawn_double_push Color.White ⟨0, 6⟩).target ≠ (⟨0, 7⟩ : Coord) := by
  decide

/-- C3: Coord's FromStr performs no validation at all.  The out-of-range
string z9 parses successfully to Coord(file 25, rank 8) instead of
returning a parse error, and inputs shorter than two characters panic in
`unwrap()` instead of returning a parse error, contradicting the claim
that every malformed input yields a recoverable parse error. -/
theorem c3_from_str_unchecked :
    Coord.from_str ['z', '9'] = CoordParse.ok ⟨25, 8⟩ ∧
    8 ≤ (25 : Nat) ∧
    Coord.from_str [] = CoordParse.panicked ∧
    Coord.from_str ['a'] = CoordParse.panicked := by
  decide

/-- C4 counterexample: processing the unrecognized character x at rank 7
with the file cursor at 0 over the populated default board does not
leave the state unchanged as the claim states: it stores None at tile 56
(erasing the black rook on a8) and advances the file cursor to 1. -/
theorem c4_skip_counterexample :
    rankCharStep 7 (boardNew.squares, 0) 'x' = some (boardNew.squares.set 56 none, 1) ∧
    boardNew.squares.set 56 none ≠ boardNew.squares ∧
    rankCharStep 7 (boardNew.squares, 0) 'x' ≠ some (boardNew.squares, 0) := by
  decide

/-- C5: Board::set_position_from_fen accepts over-long ranks.  With nine
rooks in the last block (rank 1, i.e. rank index 0) the ninth rook is
written to tile 8 = file 8 + rank 0 * 8, which belongs to rank index 1 —
a different rank — and the call still succeeds; with nine rooks in the
first block (rank index 7) the ninth write targets tile 64, reaching the
out-of-bounds panic branch instead of a recoverable error. -/
theorem c5_rank_overflow :
    (∃ b, Board.set_position_from_fen emptyBoard fenNineRooksLast = PlacementResult.ok b ∧
      b.squares.get? 8 = some (some (Piece.Rook Color.White)) ∧
      (Coord.from_tile 8).rank = 1 ∧ (1 : Nat) ≠ 0) ∧
    Board.set_position_from_fen emptyBoard fenNineRooksFirst = PlacementResult.panicked := by
  exact ⟨⟨_, rfl, by decide, by decide, by decide⟩, by decide⟩

/-- C7: ChessGame::clear resets the Board only — all 64 squares become
empty, the selections are dropped and the perspective resets to White —
while castling rights, side to move, en-passant target and both clocks
keep their prior values. -/
theorem c7_clear_frame (g : ChessGame) :
    (ChessGame.clear g).board.squares = List.replicate 64 none ∧
    (ChessGame.clear g).board.selections = [] ∧
    (ChessGame.clear g).board.perspective = Color.White ∧
    (ChessGame.clear g).castling_rights = g.castling_rights ∧
    (ChessGame.clear g).side_to_move = g.side_to_move ∧
    (ChessGame.clear g).enpassant_target_square = g.enpassant_target_square ∧
    (ChessGame.clear g).halfmove_clock = g.halfmove_clock ∧
    (ChessGame.clear g).fullmove_clock = g.fullmove_clock :=
  ⟨rfl, rfl, rfl, rfl, rfl, rfl, rfl, rfl⟩

/-- Letters of the true castling flags in the fixed order K, Q, k, q,
written from the claim's wording for comparison with the source's
Display implementation. -/
def castlingLettersSpec (cr : CastlingRights) : List Char :=
  [(cr.white_king_side, 'K'), (cr.white_queen_side, 'Q'),
   (cr.black_king_side, 'k'), (cr.black_queen_side, 'q')].filterMap
    (fun p => if p.1 then some p.2 else none)

/-- C9: for every CastlingRights value the Display serialization is
exactly the concatenation of the letters of the true flags in the order
K, Q, k, q, and is a dash when all four flags are false; in particular
(true, false, true, false) formats as Kk and all-false formats as a
dash. -/
theorem c9_castling_display (cr : CastlingRights) :
    castlingToFen cr =
      (if castlingLettersSpec cr = [] then ['-'] else castlingLettersSpec cr) ∧
    castlingToFen ⟨true, false, true, false⟩ = ['K', 'k'] ∧
    castlingToFen ⟨false, false, false, false⟩ = ['-'] := by
  rcases cr with ⟨a, b, c, d⟩
  cases a <;> cases b <;> cases c <;> cases d <;> decide

/-- C10: Board::new (= Board::default) succeeds in applying the standard
opening placement — so the unwrap never fires — and returns a board with
the white rook on a1 (tile 0), the white king on e1 (tile 4) and the
black king on e8 (tile 60), perspective White and no selections; it is
not an empty board even though ChessGame's internal constructor built on
it is named new_empty_board. -/
theorem c10_board_new_start :
    boardNewResult = PlacementResult.ok boardNew ∧
    boardNew.squares.get? 0 = some (some (Piece.Rook Color.White)) ∧
    boardNew.squares.get? 4 = some (some (Piece.King Color.White)) ∧
    boardNew.squares.get? 60 = some (some (Piece.King Color.Black)) ∧
    boardNew.perspective = Color.White ∧
    boardNew.selections = [] ∧
    ChessGame.new_empty_board.board = boardNew ∧
    boardNew.squares ≠ List.replicate 64 none := by
  decide

/-- Target of the White double-push chain: two ranks up when both steps
stay on the board, otherwise the original source square (both
`unwrap_or` fallbacks reuse the source). -/
lemma double_push_target_white (f r : Nat) :
    ((((⟨f, r⟩ : Coord).next_up).getD ⟨f, r⟩).next_up).getD ⟨f, r⟩ =
      if r < 6 then (⟨f, r + 2⟩ : Coord) else ⟨f, r⟩ := by
  by_cases h7 : r < 7
  · have h1 : (⟨f, r⟩ : Coord).next_up = some ⟨f, r + 1⟩ := by
      simp [Coord.next_up, h7]
    rw [h1, Option.getD_some]
    by_cases h6 : r < 6
    · have h2 : (⟨f, r + 1⟩ : Coord).next_up = some ⟨f, r + 2⟩ := by
        simp [Coord.next_up, show r + 1 < 7 by omega]
    
      rw [h2, Option.getD_some, if_pos h6]
    · have h2 : (⟨f, r + 1⟩ : Coord).next_up = none := by
        simp [Coord.next_up, show ¬ r + 1 < 7 by omega]
      rw [h2, Option.getD_none, if_neg h6]
  · have h1 : (⟨f, r⟩ : Coord).next_up = none := by
      simp [Coord.next_up, h7]
    rw [h1, Option.getD_none, h1, Option.getD_none, if_neg (show ¬ r < 6 by omega)]

/-- Target of the Black double-push chain: two ranks down when both
steps stay on the board, otherwise the original source square. -/
lemma double_push_target_black (f r : Nat) :
    ((((⟨f, r⟩ : Coord).next_down).getD ⟨f, r⟩).next_down).getD ⟨f, r⟩ =
      if 2 ≤ r then (⟨f, r - 2⟩ : Coord) else ⟨f, r⟩ := by
  by_cases h2 : 2 ≤ r
  · have ha : (⟨f, r⟩ : Coord).next_down = some ⟨f, r - 1⟩ := by
      simp [Coord.next_down, show 0 < r by omega]
    rw [ha, Option.getD_some]
    have hb : (⟨f, r - 1⟩ : Coord).next_down = some ⟨f, r - 1 - 1⟩ := by
      simp [Coord.next_down, show 0 < r - 1 by omega]
    rw [hb, Option.getD_some, if_pos h2]
    have hc : r - 1 - 1 = r - 2 := by omega
    rw [hc]
  · by_cases h1 : 0 < r
    · have ha : (⟨f, r⟩ : Coord).next_down = some ⟨f, r - 1⟩ := by
        simp [Coord.next_down, h1]
      rw [ha, Option.getD_some]
      have hb : (⟨f, r - 1⟩ : Coord).next_down = none := by
        simp [Coord.next_down, show ¬ 0 < r - 1 by omega]
      rw [hb, Option.getD_none, if_neg h2]
    · have ha : (⟨f, r⟩ : Coord).next_down = none := by
        simp [Coord.next_down, h1]
      rw [ha, Option.getD_none, ha, Option.getD_none, if_neg h2]

/-- C2 (amended): Move::new_pawn_double_push always produces a Move with
piece Pawn(color), double_push true, capture/castling/enpassant false
and no promoted piece, whose target is two ranks in the mover's forward
direction; when either step would leave the board the target falls back
to the source square itself (not to a single step at the board edge)
and the construction does not fail; in particular at a7 for Black it
targets a5, and at a8 for White (already at the edge) it yields a8. -/
theorem c2_double_push_amended (color : Color) (source : Coord) :
    (Move.new_pawn_double_push color source).piece = Piece.Pawn color ∧
    (Move.new_pawn_double_push color source).double_push = true ∧
    (Move.new_pawn_double_push color source).capture = false ∧
    (Move.new_pawn_double_push color source).castling = false ∧
    (Move.new_pawn_double_push color source).enpassant = false ∧
    (Move.new_pawn_double_push color source).promoted_piece = none ∧
    (Move.new_pawn_double_push color source).source = source ∧
    (Move.new_pawn_double_push color source).target =
      (if color = Color.White
       then (if source.rank < 6 then (⟨source.file, source.rank + 2⟩ : Coord) else source)
       else (if 2 ≤ source.rank then (⟨source.file, source.rank - 2⟩ : Coord) else source)) ∧
    (Move.new_pawn_double_push Color.Black (⟨0, 6⟩ : Coord)).target = (⟨0, 4⟩ : Coord) ∧
    (Move.new_pawn_double_push Color.White (⟨0, 7⟩ : Coord)).target = (⟨0, 7⟩ : Coord) := by
  rcases source with ⟨f, r⟩
  cases color
  · exact ⟨rfl, rfl, rfl, rfl, rfl, rfl, rfl, double_push_target_white f r,
      by decide, by decide⟩
  · exact ⟨rfl, rfl, rfl, rfl, rfl, rfl, rfl, double_push_target_black f r,
      by decide, by decide⟩

/-- ASCII digit characters are not recognized as pieces by the FEN
decoder. -/
lemma pieceFromFenChar_of_digit (c : Char) (hd : c.isDigit = true) :
    pieceFromFenChar c = none := by
  have h1 : c ≠ 'P' := fun he => absurd hd (by subst he; decide)
  have h2 : c ≠ 'N' := fun he => absurd hd (by subst he; decide)
  have h3 : c ≠ 'B' := fun he => absurd hd (by subst he; decide)
  have h4 : c ≠ 'R' := fun he => absurd hd (by subst he; decide)
  have h5 : c ≠ 'Q' := fun he => absurd hd (by subst he; decide)
  have h6 : c ≠ 'K' := fun he => absurd hd (by subst he; decide)
  have h7 : c ≠ 'p' := fun he => absurd hd (by subst he; decide)
  have h8 : c ≠ 'n' := fun he => absurd hd (by subst he; decide)
  have h9 : c ≠ 'b' := fun he => absurd hd (by subst he; decide)
  have h10 : c ≠ 'r' := fun he => absurd hd (by subst he; decide)
  have h11 : c ≠ 'q' := fun he => absurd hd (by subst he; decide)
  have h12 : c ≠ 'k' := fun he => absurd hd (by subst he; decide)
  simp [pieceFromFenChar, h1, h2, h3, h4, h5, h6, h7, h8, h9, h10, h11, h12]

/-- Characters recognized as pieces by the FEN decoder are never ASCII
digits. -/
lemma pieceFromFenChar_ne_digit (c : Char) (p : Piece) (h : pieceFromFenChar c = some p) :
    c.isDigit = false := by
  cases hd : c.isDigit
  · rfl
  · rw [pieceFromFenChar_of_digit c hd] at h
    exact Option.noConfusion h

/-- Non-digit characters store the decoded piece (or None) at the cursor
tile and advance the cursor, provided the tile index is in bounds. -/
lemma rankCharStep_nondigit (rank : Nat) (sq : List (Option Piece)) (file : Nat) (c : Char)
    (hd : c.isDigit = false) (hidx : file + rank * 8 < sq.length) :
    rankCharStep rank (sq, file) c =
      some (sq.set (file + rank * 8) (pieceFromFenChar c), file + 1) := by
  simp [rankCharStep, setSquare, Coord.to_usize, hd, hidx]

/-- C4 (amended): within a rank string at a rank and file cursor inside
the board, each digit character advances the file cursor by its value
without touching the squares; each recognized piece letter stores that
piece at tile file + rank*8 and advances the cursor by one; and any
other character is NOT skipped: it stores None at tile file + rank*8
(emptying that square) and advances the cursor by one. -/
theorem c4_rank_char_amended (rank file : Nat) (sq : List (Option Piece)) (c : Char)
    (hr : rank < 8) (hf : file < 8) (hlen : sq.length = 64) :
    (c.isDigit = true → rankCharStep rank (sq, file) c = some (sq, file + (c.toNat - 48))) ∧
    (∀ p : Piece, pieceFromFenChar c = some p →
      rankCharStep rank (sq, file) c = some (sq.set (file + rank * 8) (some p), file + 1)) ∧
    (c.isDigit = false → pieceFromFenChar c = none →
      rankCharStep rank (sq, file) c = some (sq.set (file + rank * 8) none, file + 1)) := by
  have hidx : file + rank * 8 < sq.length := by omega
  refine ⟨?_, ?_, ?_⟩
  · intro hd
    simp [rankCharStep, hd]
  · intro p hp
    rw [rankCharStep_nondigit rank sq file c (pieceFromFenChar_ne_digit c p hp) hidx, hp]
  · intro hd hp
    rw [rankCharStep_nondigit rank sq file c hd hidx, hp]

/-- C4 amended witness: the hypotheses are satisfiable, instantiated at
rank 7, file cursor 0, a 64-slot empty squares array and the
unrecognized character x. -/
theorem c4_rank_char_amended_witness :
    (('x' : Char).isDigit = true →
      rankCharStep 7 (List.replicate 64 (none : Option Piece), 0) 'x' =
        some (List.replicate 64 (none : Option Piece), 0 + (('x' : Char).toNat - 48))) ∧
    (∀ p : Piece, pieceFromFenChar 'x' = some p →
      rankCharStep 7 (List.replicate 64 (none : Option Piece), 0) 'x' =
        some ((List.replicate 64 (none : Option Piece)).set (0 + 7 * 8) (some p), 0 + 1)) ∧
    (('x' : Char).isDigit = false → pieceFromFenChar 'x' = none →
      rankCharStep 7 (List.replicate 64 (none : Option Piece), 0) 'x' =
        some ((List.replicate 64 (none : Option Piece)).set (0 + 7 * 8) none, 0 + 1)) :=
  c4_rank_char_amended 7 0 (List.replicate 64 none) 'x' (by decide) (by decide) (by decide)

/-- Unfolding applyFenFields on an exactly-six-element field list. -/
lemma applyFenFields_six (g : ChessGame) (f1 f2 f3 f4 f5 f6 : List Char) :
    applyFenFields g [f1, f2, f3, f4, f5, f6] =
      (match Board.set_position_from_fen (Board.clear g.board) f1 with
       | PlacementResult.panicked => FenResult.panicked
       | PlacementResult.error => FenResult.error { g with board := Board.clear g.board }
       | PlacementResult.ok b2 =>
         applyFenAfterPlacement { g with board := b2 } f2 f3 f4 f5 f6) := rfl

/-- Any field count other than six trips the count check and returns the
error with the game untouched. -/
lemma applyFenFields_not_six (g : ChessGame) (l : List (List Char)) (h : l.length ≠ 6) :
    applyFenFields g l = FenResult.error g := by
  revert h
  match l with
  | [] => intro h; rfl
  | [a] => intro h; rfl
  | [a, b] => intro h; rfl
  | [a, b, c] => intro h; rfl
  | [a, b, c, d] => intro h; rfl
  | [a, b, c, d, e] => intro h; rfl
  | [a, b, c, d, e, f] => intro h; exact absurd rfl h
  | a :: b :: c :: d :: e :: f :: x :: rest => intro h; rfl

/-- C6: apply_fen's structural failures.  When the record does not split
into exactly six whitespace-separated fields, the result is a
malformed-FEN error with the entire Position unchanged (the count check
precedes any mutation).  When the record has six fields but the
placement field does not hold exactly eight slash-delimited groups, the
result is a structural error in which the board has been cleared but no
piece placed and every other Position field keeps its prior value — so
a failed apply_fen is not atomic. -/
theorem c6_structural_errors (g : ChessGame) (fen : List Char) :
    ((splitAsciiWhitespace fen).length ≠ 6 → applyFen g fen = FenResult.error g) ∧
    (∀ f1 f2 f3 f4 f5 f6 : List Char,
      splitAsciiWhitespace fen = [f1, f2, f3, f4, f5, f6] →
      (f1.splitOn '/').length ≠ 8 →
      applyFen g fen = FenResult.error { g with board := Board.clear g.board }) := by
  constructor
  · intro h6
    exact applyFenFields_not_six g (splitAsciiWhitespace fen) h6
  · intro f1 f2 f3 f4 f5 f6 hsplit h8
    unfold applyFen
    rw [hsplit, applyFenFields_six]
    have hp : Board.set_position_from_fen (Board.clear g.board) f1 = PlacementResult.error := by
      unfold Board.set_position_from_fen
      rw [if_neg h8]
    rw [hp]

/-- C6 witness: a two-field record is rejected with the default game
unchanged, and a six-field record with a two-group placement is rejected
with exactly the board cleared. -/
theorem c6_structural_errors_witness :
    applyFen gameDefault ['1', ' ', '2'] = FenResult.error gameDefault ∧
    applyFen gameDefault ['8', '/', '8', ' ', 'w', ' ', '-', ' ', '-', ' ', '0', ' ', '1'] =
      FenResult.error { gameDefault with board := Board.clear gameDefault.board } :=
  ⟨(c6_structural_errors gameDefault ['1', ' ', '2']).1 (by decide),
   (c6_structural_errors gameDefault
       ['8', '/', '8', ' ', 'w', ' ', '-', ' ', '-', ' ', '0', ' ', '1']).2
     ['8', '/', '8'] ['w'] ['-'] ['-'] ['0'] ['1'] (by decide) (by decide)⟩

/-- Fields equal to the one-letter strings w or W decode to White. -/
lemma sideToMove_w (f : List Char) (h : f = ['w'] ∨ f = ['W']) :
    sideToMoveFromField f = Color.White := by
  unfold sideToMoveFromField
  rw [if_pos h]

/-- Fields equal to the one-letter strings b or B decode to Black. -/
lemma sideToMove_b (f : List Char) (h : f = ['b'] ∨ f = ['B']) :
    sideToMoveFromField f = Color.Black := by
  unfold sideToMoveFromField
  have hw : ¬(f = ['w'] ∨ f = ['W']) := by
    rcases h with h | h <;> subst h <;> decide
  rw [if_neg hw, if_pos h]

/-- Every other field decodes to White. -/
lemma sideToMove_default (f : List Char) (h1 : f ≠ ['w']) (h2 : f ≠ ['W'])
    (h3 : f ≠ ['b']) (h4 : f ≠ ['B']) : sideToMoveFromField f = Color.White := by
  unfold sideToMoveFromField
  rw [if_neg (not_or.mpr ⟨h1, h2⟩), if_neg (not_or.mpr ⟨h3, h4⟩)]

/-- C8: on every record whose first field is accepted (and whose
en-passant field does not hit the short-field panic), apply_fen assigns
the side to move from field 2 — w/W gives White, b/B gives Black, and
any other value silently gives White — whether or not a later field
fails; and when field 4 is a dash the whole record is accepted, so an
unrecognized side-to-move field alone never causes a failure. -/
theorem c8_side_to_move (g : ChessGame) (fen f1 f2 f3 f4 f5 f6 : List Char) (b2 : Board)
    (hsplit : splitAsciiWhitespace fen = [f1, f2, f3, f4, f5, f6])
    (hplace : Board.set_position_from_fen (Board.clear g.board) f1 = PlacementResult.ok b2)
    (hep : epFromField f4 ≠ EpResult.panicked) :
    ∃ g', (applyFen g fen = FenResult.ok g' ∨ applyFen g fen = FenResult.error g') ∧
      (f2 = ['w'] ∨ f2 = ['W'] → g'.side_to_move = Color.White) ∧
      (f2 = ['b'] ∨ f2 = ['B'] → g'.side_to_move = Color.Black) ∧
      (f2 ≠ ['w'] → f2 ≠ ['W'] → f2 ≠ ['b'] → f2 ≠ ['B'] → g'.side_to_move = Color.White) ∧
      (f4 = ['-'] → applyFen g fen = FenResult.ok g') := by
  have happ : applyFen g fen = applyFenAfterPlacement { g with board := b2 } f2 f3 f4 f5 f6 := by
    unfold applyFen
    rw [hsplit, applyFenFields_six, hplace]
  rcases hepc : epFromField f4 with _ | _ | ep
  · exact absurd hepc hep
  · refine ⟨{ g with
              board := b2
              side_to_move := sideToMoveFromField f2
              castling_rights := castlingFromField f3 }, Or.inr ?_, ?_, ?_, ?_, ?_⟩
    · rw [happ]
      unfold applyFenAfterPlacement
      rw [hepc]
    · intro h; exact sideToMove_w f2 h
    · intro h; exact sideToMove_b f2 h
    · intro h1 h2 h3 h4; exact sideToMove_default f2 h1 h2 h3 h4
    · intro h4'
      rw [h4'] at hepc
      exact absurd hepc (by decide)
  · refine ⟨{ g with
              board := b2
              side_to_move := sideToMoveFromField f2
              castling_rights := castlingFromField f3
              enpassant_target_square := ep
              halfmove_clock := (parseU32 f5).getD 0
              fullmove_clock := (parseU32 f6).getD 0 }, Or.inl ?_, ?_, ?_, ?_, ?_⟩
    · rw [happ]
      unfold applyFenAfterPlacement
      rw [hepc]
    · intro h; exact sideToMove_w f2 h
    · intro h; exact sideToMove_b f2 h
    · intro h1 h2 h3 h4; exact sideToMove_default f2 h1 h2 h3 h4
    · intro _
      rw [happ]
      unfold applyFenAfterPlacement
      rw [hepc]

/-- Empty placement field used by the C8 witness. -/
def emptyPlacementField : List Char :=
  ['8', '/', '8', '/', '8', '/', '8', '/', '8', '/', '8', '/', '8', '/', '8']

/-- FEN record whose side-to-move field is the unrecognized letter x. -/
def fenSideX : List Char :=
  emptyPlacementField ++ [' ', 'x', ' ', '-', ' ', '-', ' ', '0', ' ', '1']

/-- C8 witness: the hypotheses are satisfiable — on the record with
side-to-move field x the theorem applies and (through its last
conjunct) the record is accepted with side-to-move defaulting to
White. -/
theorem c8_side_to_move_witness :
    ∃ g', (applyFen gameDefault fenSideX = FenResult.ok g' ∨
           applyFen gameDefault fenSideX = FenResult.error g') ∧
      ((['x'] : List Char) = ['w'] ∨ (['x'] : List Char) = ['W'] →
        g'.side_to_move = Color.White) ∧
      ((['x'] : List Char) = ['b'] ∨ (['x'] : List Char) = ['B'] →
        g'.side_to_move = Color.Black) ∧
      ((['x'] : List Char) ≠ ['w'] → (['x'] : List Char) ≠ ['W'] →
       (['x'] : List Char) ≠ ['b'] → (['x'] : List Char) ≠ ['B'] →
       g'.side_to_move = Color.White) ∧
      ((['-'] : List Char) = ['-'] → applyFen gameDefault fenSideX = FenResult.ok g') :=
  c8_side_to_move gameDefault fenSideX emptyPlacementField ['x'] ['-'] ['-'] ['0'] ['1']
    emptyBoard (by decide) (by decide) (by decide)
